import Mathlib

/-!
Shallow embedding of `pkg/engine/engine.go` from kenlabs/pando_client.

The engine keeps three pieces of persisted state (latest advertisement
pointer, push history list, pending-confirmation check set) plus a local
link system (DAG store).  Fallible collaborators (datastore puts, the legs
publisher, the remote HTTP index, the remote DAG walk) are modelled by
explicit Boolean success flags and oracle functions passed as parameters.
-/

namespace PandoClient

/-- A content id.  In the source a cid is the deterministic hash of the
encoded node (payload + previous link), so identical payload and previous
link give an identical cid.  We model this perfect content addressing by
letting the cid literally be the (payload, previous) pair, which is
deterministic and injective like a collision-free hash. -/
inductive Cid where
  | root (payload : List Nat)
  | chained (payload : List Nat) (prev : Cid)
deriving DecidableEq

/-- `schema.Metadata`: an advertisement node with an opaque byte payload and
an optional link to the previous advertisement. -/
structure Metadata where
  payload : List Nat
  prevLink : Option Cid
deriving DecidableEq

/-- The cid produced by `lsys.Store` for an encoded metadata node. -/
def mkCid (m : Metadata) : Cid :=
  match m.prevLink with
  | none => Cid.root m.payload
  | some p => Cid.chained m.payload p

/-- The three fixed keys of the datastore (`sync/meta/latest`,
`sync/meta/list`, `sync/meta/check`); `none` models `ErrNotFound`. -/
structure Datastore where
  latest : Option Cid
  pushed : Option (List Cid)
  check : Option (List Cid)
deriving DecidableEq

/-- In-memory engine state: `latestMeta` (`cid.Undef` is `none`),
`pushList`, `checkList` (a set of cids, kept as a duplicate-free list),
the local link system `lsys`, and the backing datastore `ds`. -/
structure Engine where
  latestMeta : Option Cid
  pushList : List Cid
  checkList : List Cid
  lsys : List (Cid × Metadata)
  ds : Datastore
deriving DecidableEq

/-- Success flags for the fallible steps of one `Publish` call:
`lsys.Store`, the two datastore puts of `updateLatestMeta` and
`updatePushedList`, the transport `UpdateRoot`, and the datastore put of
`persistCheckList`. -/
structure PubEnv where
  storeOk : Bool
  putLatestOk : Bool
  putPushedOk : Bool
  updateRootOk : Bool
  putCheckOk : Bool
deriving DecidableEq

/-- Environment in which every collaborator call succeeds. -/
def allOk : PubEnv := ⟨true, true, true, true, true⟩

/-- Map insertion guarded by the membership test in `Publish`
(`if _, exist := e.checkList[c.String()]; !exist`). -/
def insertIfAbsent (l : List Cid) (c : Cid) : List Cid :=
  if c ∈ l then l else l ++ [c]

/-- `Engine.updateLatestMeta`: rejects an undefined cid, sets the in-memory
pointer, then puts it to the datastore.  The in-memory write happens before
the put, so it survives a put failure. -/
def updateLatestMeta (putOk : Bool) (s : Engine) (c : Option Cid) : Engine × Bool :=
  match c with
  | none => (s, false)
  | some c =>
    if putOk = false then ({ s with latestMeta := some c }, false)
    else ({ s with latestMeta := some c, ds := { s.ds with latest := some c } }, true)

/-- `Engine.updatePushedList`: rejects a nil/empty list, sets the in-memory
list, then marshals and puts it.  The in-memory write happens before the
put. -/
def updatePushedList (putOk : Bool) (s : Engine) (l : List Cid) : Engine × Bool :=
  if l = [] then (s, false)
  else if putOk = false then ({ s with pushList := l }, false)
  else ({ s with pushList := l, ds := { s.ds with pushed := some l } }, true)

/-- `Engine.persistCheckList`: when the check list is empty it only logs
"nil to update" and returns nil WITHOUT writing the datastore; otherwise it
marshals and puts the whole set. -/
def persistCheckList (putOk : Bool) (s : Engine) : Engine × Bool :=
  if s.checkList = [] then (s, true)
  else if putOk = false then (s, false)
  else ({ s with ds := { s.ds with check := some s.checkList } }, true)

/-- `Engine.PublishLocal`: store the node in the link system, update the
latest pointer, append the new cid to the pushed list.  `some c` is the
returned cid, `none` an error return. -/
def PublishLocal (env : PubEnv) (s : Engine) (m : Metadata) : Engine × Option Cid :=
  if env.storeOk = false then (s, none)
  else
    let c := mkCid m
    let s1 : Engine := { s with lsys := (c, m) :: s.lsys }
    let p1 := updateLatestMeta env.putLatestOk s1 (some c)
    if p1.2 = false then (p1.1, none)
    else
      let p2 := updatePushedList env.putPushedOk p1.1 (p1.1.pushList ++ [c])
      if p2.2 = false then (p2.1, none) else (p2.1, some c)

inductive PublishOutcome where
  | ok (c : Cid)
  | err
deriving DecidableEq

/-- `Engine.Publish`: publish locally; then, only when a publisher is
configured (`pc = true` models `e.publisher != nil`), announce via
`UpdateRoot`, add the cid to the check list if absent, and persist the
check list.  With no publisher it logs and returns the cid with nil
error. -/
def Publish (pc : Bool) (env : PubEnv) (s : Engine) (m : Metadata) :
    Engine × PublishOutcome :=
  match PublishLocal env s m with
  | (s1, none) => (s1, .err)
  | (s1, some c) =>
    if pc then
      if env.updateRootOk = false then (s1, .err)
      else
        let s2 : Engine := { s1 with checkList := insertIfAbsent s1.checkList c }
        let p := persistCheckList env.putCheckOk s2
        if p.2 = false then (p.1, .err) else (p.1, .ok c)
    else (s1, .ok c)

/-- `Engine.PublishBytesData`: wrap the bytes with the current in-memory
`latestMeta` as previous link (nil when undefined) and publish. -/
def PublishBytesData (pc : Bool) (env : PubEnv) (s : Engine) (d : List Nat) :
    Engine × PublishOutcome :=
  Publish pc env s ⟨d, s.latestMeta⟩

inductive LatestResult where
  | ok (c : Cid)
  | err
  | panicked
deriving DecidableEq

/-- `Engine.PublishLatest`: read the persisted latest cid (`gOk` models the
datastore get not failing with a non-NotFound error); error when it is
undefined; otherwise call `e.publisher.UpdateRoot` WITHOUT a nil check, so
with no configured publisher (`pc = false`) the call dereferences a nil
interface and panics.  The state is never mutated. -/
def PublishLatest (pc uOk gOk : Bool) (s : Engine) : Engine × LatestResult :=
  if gOk = false then (s, .err)
  else
    match s.ds.latest with
    | none => (s, .err)
    | some c =>
      if pc = false then (s, .panicked)
      else if uOk = false then (s, .err)
      else (s, .ok c)

/-- Outcome of the remote traversal started by `syncer.Sync`: the nodes the
block hook saw, in visitation order (each already written into local
storage by the data-transfer machinery), and whether the walk itself
returned an error. -/
structure WalkResult where
  visited : List (Cid × Metadata)
  failed : Bool
deriving DecidableEq

inductive SyncResult where
  | ok (cids : List Cid)
  | err
deriving DecidableEq

/-- `Engine.Sync`: decode the start cid and the optional end cid, build the
syncer, run the walk.  `remote` is the oracle for the traversal, given the
start cid, the depth argument and the optional end cid.  Faithful to the
source, the error returned by `syncer.Sync` is assigned to `err` and then
ignored: the function ends with `return syncRes, nil`, so a failed walk
still returns the partial visitation list with a nil error.  The nodes the
block hook recorded were stored by the transfer and are not undone. -/
def Sync (remote : Cid → Nat → Option Cid → WalkResult)
    (cDecodeOk endDecodeOk newSyncOk : Bool)
    (c : Cid) (depth : Nat) (endCid : Option Cid) (s : Engine) :
    Engine × SyncResult :=
  if cDecodeOk = false then (s, .err)
  else if endDecodeOk = false then (s, .err)
  else if newSyncOk = false then (s, .err)
  else
    let walk := remote c depth endCid
    ({ s with lsys := walk.visited ++ s.lsys }, .ok (walk.visited.map Prod.fst))

inductive CatErr where
  | syncFailed
  | wrongNumber
  | mismatch
  | loadFailed
deriving DecidableEq

/-- `lsys.Load`: find the node stored for a cid; `none` is `ErrNotFound`. -/
def lsysLoad (lsys : List (Cid × Metadata)) (c : Cid) : Option Metadata :=
  (lsys.find? (fun p => p.1 = c)).map Prod.snd

/-- `Engine.catRemote`: sync with depth 1 and no end cid; error unless
exactly one node came back; error unless its cid equals the requested one;
then load the node from local storage. -/
def catRemote (remote : Cid → Nat → Option Cid → WalkResult) (newSyncOk : Bool)
    (s : Engine) (c : Cid) : Engine × Except CatErr Metadata :=
  match Sync remote true true newSyncOk c 1 none s with
  | (s1, .err) => (s1, .error .syncFailed)
  | (s1, .ok cids) =>
    if cids.length ≠ 1 then (s1, .error .wrongNumber)
    else if cids.head? ≠ some c then (s1, .error .mismatch)
    else
      match lsysLoad s1.lsys c with
      | none => (s1, .error .loadFailed)
      | some m => (s1, .ok m)

/-- `Engine.CatCid`: load locally; on `ErrNotFound` fall back to
`catRemote`; decode the payload (our payloads are always byte nodes, so
`AsBytes` succeeds and the dagjson fallback is not taken). -/
def CatCid (remote : Cid → Nat → Option Cid → WalkResult) (newSyncOk : Bool)
    (s : Engine) (c : Cid) : Engine × Except CatErr (List Nat) :=
  match lsysLoad s.lsys c with
  | some m => (s, .ok m.payload)
  | none =>
    match catRemote remote newSyncOk s c with
    | (s1, .error e) => (s1, .error e)
    | (s1, .ok m) => (s1, .ok m.payload)

/-- The only field of `MetaInclusion` the client reads. -/
structure MetaInclusion where
  inPando : Bool
deriving DecidableEq

/-- Outcome of one `GET /metadata/inclusion?cid=` query: `transportErr`
covers a transport error, an error response or a non-200 status (all
rejected by `handleResError`); `unmarshalErr` a body that is not valid
JSON; `body d` a parsed `inclusionResJson` whose `Data` field is `d`
(`none` when the JSON had no or a null `Data`). -/
inductive InclusionResponse where
  | transportErr
  | unmarshalErr
  | body (data : Option MetaInclusion)
deriving DecidableEq

inductive StepOutcome where
  | keep
  | remove
  | panicked
deriving DecidableEq

/-- One iteration of the loop body of `Engine.checkSyncStatus` for a single
cid.  On a transport or unmarshal failure: log and continue.  When the
parsed `Data` is nil the source logs but the `continue` is commented out,
and the following `inclusion.InPando` dereferences the nil pointer: a
panic.  Otherwise the cid is removed exactly when `InPando` is true. -/
def checkStep (r : InclusionResponse) : StepOutcome :=
  match r with
  | .transportErr => .keep
  | .unmarshalErr => .keep
  | .body none => .panicked
  | .body (some inc) => if inc.inPando then .remove else .keep

/-- `Engine.checkSyncStatus` over a snapshot list of pending cids (the
shutdown channel is modelled as never signalled).  `none` means the
goroutine panicked.  A removal deletes the cid from the live check list
under the mutex. -/
def checkSyncStatus (resp : Cid → InclusionResponse) (snapshot : List Cid)
    (s : Engine) : Option Engine :=
  match snapshot with
  | [] => some s
  | c :: rest =>
    match checkStep (resp c) with
    | .panicked => none
    | .keep => checkSyncStatus resp rest s
    | .remove => checkSyncStatus resp rest { s with checkList := s.checkList.erase c }

/-- One timer tick of `Engine.runCheck`: skip when the check list is empty;
otherwise snapshot it, run `checkSyncStatus`, then persist the check list
(a persist error is only logged). -/
def runCheckTick (resp : Cid → InclusionResponse) (putOk : Bool) (s : Engine) :
    Option Engine :=
  if s.checkList = [] then some s
  else
    match checkSyncStatus resp s.checkList s with
    | none => none
    | some s1 => some (persistCheckList putOk s1).1

/-- The operations of the publish / reconciliation lifecycle. -/
inductive Op where
  | publish (pc : Bool) (env : PubEnv) (m : Metadata)
  | publishBytes (pc : Bool) (env : PubEnv) (d : List Nat)
  | publishLatest (pc uOk gOk : Bool)
  | tick (resp : Cid → InclusionResponse) (putOk : Bool)

/-- One engine operation; `none` when the operation crashed. -/
def step (s : Engine) : Op → Option Engine
  | .publish pc env m => some (Publish pc env s m).1
  | .publishBytes pc env d => some (PublishBytesData pc env s d).1
  | .publishLatest pc uOk gOk => some (PublishLatest pc uOk gOk s).1
  | .tick resp putOk => runCheckTick resp putOk s

/-- The state of a fresh engine: every datastore read gives `ErrNotFound`,
normalised by `initInfo` to the empty defaults. -/
def initEngine : Engine := ⟨none, [], [], [], ⟨none, none, none⟩⟩

/-- States reachable from a fresh engine by engine operations. -/
inductive Reachable : Engine → Prop where
  | init : Reachable initEngine
  | next (s : Engine) (op : Op) (s' : Engine) :
      Reachable s → step s op = some s' → Reachable s'

/-- A run of successful `PublishBytesData` calls; each element records the
in-memory `latestMeta` held immediately before the publish together with
the advertisement built by that publish. -/
def publishRun (pc : Bool) (s : Engine) : List (List Nat) → List (Option Cid × Metadata)
  | [] => []
  | d :: rest =>
    (s.latestMeta, ⟨d, s.latestMeta⟩) ::
      publishRun pc (PublishBytesData pc allOk s d).1 rest

/-- The chain discipline of a publish run: each advertisement's previous
link equals the pointer held before its publish, which equals the previous
advertisement's cid. -/
def chainOk : Option Cid → List (Option Cid × Metadata) → Prop
  | _, [] => True
  | prev, (b, m) :: rest => b = prev ∧ m.prevLink = prev ∧ chainOk (some (mkCid m)) rest

/-! Concrete sample data used by witnesses and counterexamples. -/

def mW : Metadata := ⟨[7], none⟩

def cW : Cid := mkCid mW

/-- A state with one pending cid whose snapshot is persisted. -/
def sPend : Engine :=
  ⟨some cW, [cW], [cW], [(cW, mW)], ⟨some cW, some [cW], some [cW]⟩⟩

/-- `sPend` after a reconciliation batch that confirmed its only pending
cid: the in-memory check list is empty, the persisted snapshot untouched. -/
def sEmptied : Engine := { sPend with checkList := [] }

/-- The fresh engine after one fully successful publish of `mW`. -/
def sAfterPub : Engine := (Publish true allOk initEngine mW).1

/-! ## Helper lemmas -/

theorem insertIfAbsent_ne_nil (l : List Cid) (c : Cid) : insertIfAbsent l c ≠ [] := by
  unfold insertIfAbsent
  split
  · exact List.ne_nil_of_mem (by assumption)
  · simp

theorem mem_insertIfAbsent (l : List Cid) (c x : Cid) (h : x ∈ insertIfAbsent l c) :
    x ∈ l ∨ x = c := by
  unfold insertIfAbsent at h
  split at h
  · exact Or.inl h
  · rcases List.mem_append.1 h with h | h
    · exact Or.inl h
    · exact Or.inr (List.mem_singleton.1 h)

theorem persistCheckList_frame (b : Bool) (s : Engine) :
    (persistCheckList b s).1.checkList = s.checkList ∧
    (persistCheckList b s).1.pushList = s.pushList ∧
    (persistCheckList b s).1.latestMeta = s.latestMeta ∧
    (persistCheckList b s).1.lsys = s.lsys := by
  unfold persistCheckList
  split
  · simp
  · split <;> simp

theorem PublishLocal_spec (env : PubEnv) (s : Engine) (m : Metadata) :
    (PublishLocal env s m).1.checkList = s.checkList ∧
    ((PublishLocal env s m).1.pushList = s.pushList ∨
      (PublishLocal env s m).1.pushList = s.pushList ++ [mkCid m]) ∧
    (∀ c, (PublishLocal env s m).2 = some c →
      c = mkCid m ∧ (PublishLocal env s m).1.pushList = s.pushList ++ [mkCid m]) := by
  obtain ⟨so, plo, ppo, uo, co⟩ := env
  cases so <;> cases plo <;> cases ppo <;>
    simp [PublishLocal, updateLatestMeta, updatePushedList]

theorem PublishLatest_state (pc uOk gOk : Bool) (s : Engine) :
    (PublishLatest pc uOk gOk s).1 = s := by
  cases gOk <;> cases pc <;> cases uOk <;> cases h : s.ds.latest <;>
    simp [PublishLatest, h]

theorem Publish_pushList (pc : Bool) (env : PubEnv) (s : Engine) (m : Metadata) :
    (Publish pc env s m).1.pushList = s.pushList ∨
    (Publish pc env s m).1.pushList = s.pushList ++ [mkCid m] := by
  obtain ⟨so, plo, ppo, uo, co⟩ := env
  cases so <;> cases plo <;> cases ppo <;> cases uo <;> cases co <;> cases pc <;>
    simp [Publish, PublishLocal, updateLatestMeta, updatePushedList, persistCheckList,
      insertIfAbsent_ne_nil]

theorem Publish_checkList (pc : Bool) (env : PubEnv) (s : Engine) (m : Metadata) :
    (Publish pc env s m).1.checkList = s.checkList ∨
    ((Publish pc env s m).1.checkList = insertIfAbsent s.checkList (mkCid m) ∧
      (Publish pc env s m).1.pushList = s.pushList ++ [mkCid m]) := by
  obtain ⟨so, plo, ppo, uo, co⟩ := env
  cases so <;> cases plo <;> cases ppo <;> cases uo <;> cases co <;> cases pc <;>
    simp [Publish, PublishLocal, updateLatestMeta, updatePushedList, persistCheckList,
      insertIfAbsent_ne_nil]

theorem checkSyncStatus_spec (resp : Cid → InclusionResponse) :
    ∀ (l : List Cid) (s s' : Engine), checkSyncStatus resp l s = some s' →
      s'.checkList ⊆ s.checkList ∧ s'.pushList = s.pushList ∧ s'.ds = s.ds ∧
      s'.latestMeta = s.latestMeta ∧ s'.lsys = s.lsys := by
  intro l
  induction l with
  | nil =>
    intro s s' h
    simp only [checkSyncStatus, Option.some.injEq] at h
    subst h
    exact ⟨fun _ hx => hx, rfl, rfl, rfl, rfl⟩
  | cons c rest ih =>
    intro s s' h
    unfold checkSyncStatus at h
    cases hcs : checkStep (resp c) <;> rw [hcs] at h
    · exact ih s s' h
    · obtain ⟨h1, h2, h3, h4, h5⟩ := ih _ s' h
      exact ⟨fun x hx => List.erase_subset _ _ (h1 hx), h2, h3, h4, h5⟩
    · exact absurd h (by simp)

theorem runCheckTick_spec (resp : Cid → InclusionResponse) (putOk : Bool)
    (s s' : Engine) (h : runCheckTick resp putOk s = some s') :
    s'.checkList ⊆ s.checkList ∧ s'.pushList = s.pushList := by
  unfold runCheckTick at h
  split at h
  · cases h
    exact ⟨fun _ hx => hx, rfl⟩
  · cases hcs : checkSyncStatus resp s.checkList s <;> rw [hcs] at h
    · exact absurd h (by simp)
    · cases h
      rename_i s1
      have hc := checkSyncStatus_spec resp s.checkList s s1 hcs
      have hf := persistCheckList_frame putOk s1
      exact ⟨by rw [hf.1]; exact hc.1, by rw [hf.2.1]; exact hc.2.1⟩

theorem Publish_inv (pc : Bool) (env : PubEnv) (s : Engine) (m : Metadata) :
    (∃ t, (Publish pc env s m).1.pushList = s.pushList ++ t) ∧
    ((∀ x ∈ s.checkList, x ∈ s.pushList) →
      ∀ x ∈ (Publish pc env s m).1.checkList, x ∈ (Publish pc env s m).1.pushList) := by
  constructor
  · rcases Publish_pushList pc env s m with hp | hp
    · exact ⟨[], by simp [hp]⟩
    · exact ⟨[mkCid m], hp⟩
  · intro hinv x hx
    rcases Publish_checkList pc env s m with hc | ⟨hc, hp⟩
    · rw [hc] at hx
      rcases Publish_pushList pc env s m with hp | hp <;> rw [hp]
      · exact hinv x hx
      · exact List.mem_append_left _ (hinv x hx)
    · rw [hc] at hx
      rcases mem_insertIfAbsent _ _ _ hx with hx | hx
      · rw [hp]
        exact List.mem_append_left _ (hinv x hx)
      · rw [hp, hx]
        simp

theorem step_spec (s : Engine) (op : Op) (s' : Engine) (h : step s op = some s') :
    (∃ t, s'.pushList = s.pushList ++ t) ∧
    ((∀ x ∈ s.checkList, x ∈ s.pushList) → ∀ x ∈ s'.checkList, x ∈ s'.pushList) := by
  cases op with
  | publish pc env m =>
    cases h
    exact Publish_inv pc env s m
  | publishBytes pc env d =>
    cases h
    exact Publish_inv pc env s ⟨d, s.latestMeta⟩
  | publishLatest pc uOk gOk =>
    cases h
    rw [PublishLatest_state]
    exact ⟨⟨[], by simp⟩, fun hinv => hinv⟩
  | tick resp putOk =>
    have ht := runCheckTick_spec resp putOk s s' h
    refine ⟨⟨[], by simp [ht.2]⟩, fun hinv x hx => ?_⟩
    rw [ht.2]
    exact hinv x (ht.1 hx)

theorem PublishBytesData_latestMeta (pc : Bool) (s : Engine) (d : List Nat) :
    (PublishBytesData pc allOk s d).1.latestMeta = some (mkCid ⟨d, s.latestMeta⟩) := by
  cases pc <;>
    simp [PublishBytesData, Publish, PublishLocal, allOk, updateLatestMeta,
      updatePushedList, persistCheckList, insertIfAbsent_ne_nil]

theorem publishRun_chainOk (pc : Bool) :
    ∀ (payloads : List (List Nat)) (s : Engine),
      chainOk s.latestMeta (publishRun pc s payloads) := by
  intro payloads
  induction payloads with
  | nil => intro s; trivial
  | cons d rest ih =>
    intro s
    refine ⟨rfl, rfl, ?_⟩
    have h := ih (PublishBytesData pc allOk s d).1
    rwa [PublishBytesData_latestMeta] at h

theorem chainOk_get :
    ∀ (l : List (Option Cid × Metadata)) (prev : Option Cid), chainOk prev l →
      (∀ h0 : 0 < l.length, (l.get ⟨0, h0⟩).1 = prev ∧ (l.get ⟨0, h0⟩).2.prevLink = prev) ∧
      (∀ i (h1 : i < l.length) (h2 : i + 1 < l.length),
        (l.get ⟨i + 1, h2⟩).2.prevLink = some (mkCid (l.get ⟨i, h1⟩).2) ∧
        (l.get ⟨i + 1, h2⟩).1 = some (mkCid (l.get ⟨i, h1⟩).2)) := by
  intro l
  induction l with
  | nil =>
    intro prev _
    constructor
    · intro h0
      simp at h0
    · intro i h1 h2
      simp at h1
  | cons hd tl ih =>
    intro prev hc
    obtain ⟨b, m⟩ := hd
    obtain ⟨hb, hm, hrest⟩ := hc
    constructor
    · intro h0
      exact ⟨hb, hm⟩
    · intro i h1 h2
      have ihr := ih (some (mkCid m)) hrest
      cases i with
      | zero =>
        have htl : 0 < tl.length := by
          simpa using h2
        have h0 := ihr.1 htl
        exact ⟨h0.2, h0.1⟩
      | succ j =>
        have hj1 : j < tl.length := by
          simpa using h1
        have hj2 : j + 1 < tl.length := by
          simpa using h2
        exact ihr.2 j hj1 hj2

/-! ## Claim theorems -/

/-- Claim C1 (code-bug evaluation): in `Engine.Sync` the error returned by
`syncer.Sync` is assigned to `err` and then discarded by `return syncRes,
nil`, so a remote traversal that visits one node and then fails still
returns the partial visitation list with a nil error — the first error is
not propagated and the partial list is not discarded. -/
theorem C1_sync_swallows_walk_error :
    Sync (fun _ _ _ => ⟨[(cW, mW)], true⟩) true true true cW 0 none initEngine
      = ({ initEngine with lsys := [(cW, mW)] }, .ok [cW]) := rfl

/-- Claim C2 counterexample: a reconciliation batch that confirms the only
pending cid empties the in-memory check list, but `persistCheckList` skips
the datastore write when the set is empty ("nil to update"), so the
persisted snapshot keeps the stale previous set and differs from the
in-memory set. -/
theorem C2_cex_emptying_batch_skips_persist :
    runCheckTick (fun _ => .body (some ⟨true⟩)) true sPend = some sEmptied ∧
    sEmptied.checkList = [] ∧ sEmptied.ds.check ≠ some sEmptied.checkList := by
  decide

/-- Claim C2 (amended): after a reconciliation batch whose datastore put
succeeds, the whole pending set is persisted whenever the resulting set is
non-empty; when the batch leaves the set empty the write is skipped and
the persisted snapshot keeps its previous value. -/
theorem C2_persist_after_batch (resp : Cid → InclusionResponse) (s s' : Engine)
    (h : runCheckTick resp true s = some s') :
    (s'.checkList ≠ [] → s'.ds.check = some s'.checkList) ∧
    (s'.checkList = [] → s'.ds.check = s.ds.check) := by
  unfold runCheckTick at h
  split at h
  · rename_i hemp
    cases h
    exact ⟨fun hne => absurd hemp hne, fun _ => rfl⟩
  · cases hcs : checkSyncStatus resp s.checkList s <;> rw [hcs] at h
    · exact absurd h (by simp)
    · rename_i s1
      cases h
      have hds := (checkSyncStatus_spec resp s.checkList s s1 hcs).2.2.1
      unfold persistCheckList
      split
      · rename_i h1
        exact ⟨fun hne => absurd h1 hne, fun _ => by rw [hds]⟩
      · rename_i h1
        exact ⟨fun _ => rfl, fun he => absurd he h1⟩

/-- Witness for the amended C2 at a batch that keeps the set non-empty. -/
theorem C2_persist_after_batch_witness : sPend.ds.check = some sPend.checkList :=
  (C2_persist_after_batch (fun _ => .body (some ⟨false⟩)) sPend sPend (by decide)).1
    (by decide)

/-- Claim C3 (code-bug evaluation): when the inclusion query returns a 2xx
response whose parsed body has a nil `Data`, `checkSyncStatus` logs but the
`continue` is commented out and the following `inclusion.InPando`
dereferences the nil pointer — the loop crashes on that single id instead
of moving to the next one. -/
theorem C3_nil_inclusion_data_crashes_loop :
    checkStep (.body none) = .panicked ∧
    checkSyncStatus (fun _ => .body none) [cW] sPend = none := by
  decide

/-- Claim C4: when the local publish succeeds and the transport announce
(`UpdateRoot`) fails, `Publish` returns an error while the stored
advertisement, the updated latest pointer and the push-history append (in
memory and in the datastore) all persist; the check list and its snapshot
are untouched. -/
theorem C4_announce_failure_keeps_local_state (b : Bool) (s : Engine) (m : Metadata) :
    Publish true ⟨true, true, true, false, b⟩ s m =
      ({ s with
          lsys := (mkCid m, m) :: s.lsys,
          latestMeta := some (mkCid m),
          pushList := s.pushList ++ [mkCid m],
          ds := { s.ds with
                    latest := some (mkCid m)
                    pushed := some (s.pushList ++ [mkCid m]) } },
        .err) := by
  simp [Publish, PublishLocal, updateLatestMeta, updatePushedList]

/-- Claim C5: on a local cache miss, `CatCid` performs a depth-1 remote
fetch; it fails when the fetch yields a number of nodes other than one,
fails with the mismatch error when the single fetched node's cid differs
from the requested one, and returns the decoded payload when the single
fetched node's cid matches. -/
theorem C5_cat_fallback (remote : Cid → Nat → Option Cid → WalkResult)
    (s : Engine) (c : Cid) (hmiss : lsysLoad s.lsys c = none) :
    ((remote c 1 none).visited.length ≠ 1 →
      (CatCid remote true s c).2 = .error .wrongNumber) ∧
    (∀ c' m', (remote c 1 none).visited = [(c', m')] → c' ≠ c →
      (CatCid remote true s c).2 = .error .mismatch) ∧
    (∀ m', (remote c 1 none).visited = [(c, m')] →
      (CatCid remote true s c).2 = .ok m'.payload) := by
  refine ⟨fun h => ?_, fun c' m' hv hne => ?_, fun m' hv => ?_⟩
  · simp [CatCid, catRemote, Sync, hmiss, h]
  · simp [CatCid, catRemote, Sync, hmiss, hv, hne]
  · simp only [CatCid]
    rw [hmiss]
    simp [catRemote, Sync, hv, lsysLoad]

/-- Witness for C5 at a concrete miss and a matching depth-1 fetch. -/
theorem C5_cat_fallback_witness :
    (CatCid (fun _ _ _ => ⟨[(cW, mW)], false⟩) true initEngine cW).2 = .ok mW.payload :=
  (C5_cat_fallback (fun _ _ _ => ⟨[(cW, mW)], false⟩) initEngine cW rfl).2.2 mW rfl

/-- Claim C6: with a configured publisher, `PublishLatest` never mutates
the engine state (no new advertisement is created and nothing is added to
the pending set), errors when no advertisement has ever been published
(undefined persisted latest pointer), and on a successful announce returns
the existing latest pointer. -/
theorem C6_publishLatest_reannounce (uOk : Bool) (s : Engine) :
    (PublishLatest true uOk true s).1 = s ∧
    (s.ds.latest = none → (PublishLatest true uOk true s).2 = .err) ∧
    (∀ c, s.ds.latest = some c → uOk = true →
      (PublishLatest true uOk true s).2 = .ok c) := by
  refine ⟨PublishLatest_state true uOk true s, fun h => ?_, fun c h hu => ?_⟩
  · simp [PublishLatest, h]
  · subst hu
    simp [PublishLatest, h]

/-- Witness for C6 at a state with a published advertisement. -/
theorem C6_publishLatest_witness :
    (PublishLatest true true true sPend).1 = sPend ∧
    (PublishLatest true true true sPend).2 = .ok cW :=
  ⟨(C6_publishLatest_reannounce true sPend).1,
    (C6_publishLatest_reannounce true sPend).2.2 cW rfl rfl⟩

/-- Claim C7: in every state reachable by publish and reconciliation
operations, every pending cid is also in the push history, and a step never
loses a previously recorded push-history id — the history is only ever
extended on the right. -/
theorem C7_pending_subset_pushed (s : Engine) (h : Reachable s) :
    (∀ c ∈ s.checkList, c ∈ s.pushList) ∧
    (∀ (op : Op) (s' : Engine), step s op = some s' →
      ∃ t, s'.pushList = s.pushList ++ t) := by
  induction h with
  | init =>
    exact ⟨by simp [initEngine], fun op s' h => (step_spec initEngine op s' h).1⟩
  | next s0 op s1 hr hstep ih =>
    exact ⟨(step_spec s0 op s1 hstep).2 ih.1,
      fun op2 s2 h2 => (step_spec s1 op2 s2 h2).1⟩

/-- Witness for C7 at the reachable state after one successful publish. -/
theorem C7_pending_subset_pushed_witness : cW ∈ sAfterPub.pushList :=
  (C7_pending_subset_pushed sAfterPub
      (Reachable.next initEngine (.publish true allOk mW) sAfterPub Reachable.init rfl)).1
    cW (by decide)

/-- Claim C8: starting from an undefined latest pointer, in a run of
successful publishes the first advertisement has no previous link, and
each later advertisement's previous link equals the previous
advertisement's cid, which is exactly the latest pointer held immediately
before that publish. -/
theorem C8_chain_integrity (pc : Bool) (s : Engine) (payloads : List (List Nat))
    (h0 : s.latestMeta = none) :
    (∀ h1 : 0 < (publishRun pc s payloads).length,
      ((publishRun pc s payloads).get ⟨0, h1⟩).2.prevLink = none) ∧
    (∀ i (h1 : i < (publishRun pc s payloads).length)
        (h2 : i + 1 < (publishRun pc s payloads).length),
      ((publishRun pc s payloads).get ⟨i + 1, h2⟩).2.prevLink
          = some (mkCid ((publishRun pc s payloads).get ⟨i, h1⟩).2) ∧
      ((publishRun pc s payloads).get ⟨i + 1, h2⟩).1
          = some (mkCid ((publishRun pc s payloads).get ⟨i, h1⟩).2)) := by
  have hc := publishRun_chainOk pc payloads s
  rw [h0] at hc
  have hg := chainOk_get (publishRun pc s payloads) none hc
  exact ⟨fun h1 => (hg.1 h1).2, hg.2⟩

/-- Witness for C8 on a concrete two-publish run. -/
theorem C8_chain_integrity_witness :
    ((publishRun true initEngine [[1], [2]]).get ⟨1, by decide⟩).2.prevLink
        = some (mkCid ((publishRun true initEngine [[1], [2]]).get ⟨0, by decide⟩).2) ∧
    ((publishRun true initEngine [[1], [2]]).get ⟨1, by decide⟩).1
        = some (mkCid ((publishRun true initEngine [[1], [2]]).get ⟨0, by decide⟩).2) :=
  (C8_chain_integrity true initEngine [[1], [2]] rfl).2 0 (by decide) (by decide)

/-- Claim C9: with an advertisement already published (defined persisted
latest pointer) but no configured publisher, `PublishLatest` reaches the
un-guarded `e.publisher.UpdateRoot` call on a nil interface and panics,
instead of no-opping or returning a typed error. -/
theorem C9_nil_publisher_panics (uOk : Bool) (s : Engine) (c : Cid)
    (h : s.ds.latest = some c) :
    (PublishLatest false uOk true s).2 = .panicked := by
  simp [PublishLatest, h]

/-- Witness for C9 at a state with a published advertisement. -/
theorem C9_nil_publisher_panics_witness :
    (PublishLatest false true true sPend).2 = .panicked :=
  C9_nil_publisher_panics true sPend cW rfl

/-- Claim C10: with no publisher configured, a `Publish` whose local part
succeeds returns the new cid with no error, and neither the in-memory check
list nor its persisted snapshot changes — the id is never added to the
pending set. -/
theorem C10_publish_without_transport (u p : Bool) (s : Engine) (m : Metadata) :
    Publish false ⟨true, true, true, u, p⟩ s m =
      ({ s with
          lsys := (mkCid m, m) :: s.lsys,
          latestMeta := some (mkCid m),
          pushList := s.pushList ++ [mkCid m],
          ds := { s.ds with
                    latest := some (mkCid m)
                    pushed := some (s.pushList ++ [mkCid m]) } },
        .ok (mkCid m)) := by
  simp [Publish, PublishLocal, updateLatestMeta, updatePushedList]

end PandoClient
